import Mathlib

/-!
# gowiki: a verification development for `wiki.go`

A shallow embedding of the wiki server of `src/wiki.go` and theorems about its
page store, its router and its handlers.

Conventions of the embedding.

* A Go `string` is a Lean `String`, a `[]byte` is a `ByteArray`, and the
  conversion `[]byte(s)` is `String.toUTF8`. (Go strings that are not valid
  UTF-8 have no counterpart; the regular expression of the program matches ASCII
  characters only.)
* The operating system's file system is a value of type `FileSystem`; the
  functions that touch it take the state before and return the state after.
* A `http.ResponseWriter` is the list of calls the program has made on it, in
  order (`Call`), each with the arguments the program passed; `statusCode` reads
  off the status line a client receives, and `http.respond` gives the whole
  response the server makes of the calls: status, headers sent and body. The
  cleaning and the escaping of a redirect target are not modelled.
* The library functions the program calls (`regexp`, `path/filepath`,
  `io/ioutil`, `net/http`) are modelled after their documented behaviour, in
  namespaces named after the Go packages.
-/

set_option autoImplicit false

namespace gowiki

/-! ## Package `regexp` -/

namespace regexp

/-- Syntax tree of a regular expression, restricted to the operators that occur
in the pattern of `validPath`. -/
inductive Regexp where
  /-- The anchor `^`: the start of the text. -/
  | beginText
  /-- The anchor `$`: without the `m` flag, the end of the text only. -/
  | endText
  /-- The empty expression. -/
  | empty
  /-- A literal character. -/
  | lit (c : Char)
  /-- A character class, given by its ranges, as in `[a-zA-Z0-9]`. -/
  | cls (ranges : List (Char × Char))
  /-- Concatenation. -/
  | cat (a b : Regexp)
  /-- Alternation `a|b`, preferring `a`. -/
  | alt (a b : Regexp)
  /-- Greedy repetition `a+`. -/
  | plus (a : Regexp)
  /-- Capturing group number `i`. -/
  | cap (i : Nat) (a : Regexp)

/-- A literal string, as the concatenation of its characters. -/
def Regexp.str : List Char → Regexp
  | [] => .empty
  | c :: cs => .cat (.lit c) (Regexp.str cs)

/-- One thread of the matcher: how many characters of the text lie behind it,
the characters still ahead, and the groups captured so far (latest first). -/
structure Thread where
  pos : Nat
  rest : List Char
  caps : List (Nat × List Char)
deriving DecidableEq

/-- Does the character lie in one of the ranges of a class? -/
def inClass (ranges : List (Char × Char)) (c : Char) : Bool :=
  ranges.any fun r => decide (r.1 ≤ c) && decide (c ≤ r.2)

/-- Greedy iteration for `a+`: run `step` once, then prefer to run it again over
stopping. `n` bounds the number of iterations. -/
def plusLoop (step : Thread → List Thread) : Nat → Thread → List Thread
  | 0, _ => []
  | n + 1, t => (step t).flatMap fun u => plusLoop step n u ++ [u]

/-- All the ways the expression matches at the thread's position, in the order
of preference of Go's leftmost-first semantics. -/
def Regexp.run : Regexp → Thread → List Thread
  | .beginText, t => if t.pos = 0 then [t] else []
  | .endText, t =>
    match t.rest with
    | [] => [t]
    | _ :: _ => []
  | .empty, t => [t]
  | .lit c, t =>
    match t.rest with
    | [] => []
    | x :: xs => if x = c then [{ t with pos := t.pos + 1, rest := xs }] else []
  | .cls ranges, t =>
    match t.rest with
    | [] => []
    | x :: xs => if inClass ranges x then [{ t with pos := t.pos + 1, rest := xs }] else []
  | .cat a b, t => (a.run t).flatMap fun u => b.run u
  | .alt a b, t => a.run t ++ b.run t
  | .plus a, t => plusLoop (fun u => a.run u) t.rest.length t
  | .cap i a, t =>
    (a.run t).map fun u => { u with caps := (i, t.rest.take (u.pos - t.pos)) :: u.caps }

/-- Number of capturing groups of the expression. -/
def Regexp.NumSubexp : Regexp → Nat
  | .cat a b => max a.NumSubexp b.NumSubexp
  | .alt a b => max a.NumSubexp b.NumSubexp
  | .plus a => a.NumSubexp
  | .cap i a => max i a.NumSubexp
  | _ => 0

/-- The leftmost match: the first start position at which the expression
matches, with the matched text and the preferred thread there. -/
def leftmost (re : Regexp) : Nat → List Char → Option (List Char × Thread)
  | pos, [] => ((re.run ⟨pos, [], []⟩).head?).map fun t => ([], t)
  | pos, c :: cs =>
    match (re.run ⟨pos, c :: cs, []⟩).head? with
    | some t => some ((c :: cs).take (t.pos - pos), t)
    | none => leftmost re (pos + 1) cs

/-- Go's `(*Regexp).FindStringSubmatch`: `none` is the nil slice; otherwise the
text of the leftmost match followed by the text of each group (`""` for a group
that took no part in the match). -/
def Regexp.FindStringSubmatch (re : Regexp) (s : String) : Option (List String) :=
  (leftmost re 0 s.data).map fun m =>
    String.mk m.1 ::
      (List.range re.NumSubexp).map fun i => String.mk ((m.2.caps.lookup (i + 1)).getD [])

end regexp

open regexp in
/-- The source's `validPath`, i.e.
`regexp.MustCompile("^/(edit|save|view)/([a-zA-Z0-9]+)$")`. -/
def validPath : Regexp :=
  .cat .beginText <|
  .cat (.lit '/') <|
  .cat (.cap 1 (.alt (.str "edit".data) (.alt (.str "save".data) (.str "view".data)))) <|
  .cat (.lit '/') <|
  .cat (.cap 2 (.plus (.cls [('a', 'z'), ('A', 'Z'), ('0', '9')])))
  .endText

/-! ## Packages `strings`, `path` and `path/filepath` (Unix) -/

namespace strings

/-- Go's `strings.HasPrefix`: does `s` begin with `pre`? -/
def HasPrefix (s pre : String) : Bool :=
  pre.data.isPrefixOf s.data

end strings

namespace path

/-- The elements of a path: the pieces between its slashes. -/
def splitSlash : List Char → List (List Char)
  | [] => [[]]
  | c :: cs =>
    if c = '/' then [] :: splitSlash cs
    else
      match splitSlash cs with
      | [] => [[c]]
      | e :: es => (c :: e) :: es

/-- One element of the path meets the elements kept so far (`out`, last kept
element first): empty and `.` elements are dropped, `..` removes the element
before it, is dropped at the root and is kept at the start of a relative path. -/
def cleanStep (rooted : Bool) (out : List (List Char)) (e : List Char) : List (List Char) :=
  if e = [] ∨ e = ['.'] then out
  else if e = ['.', '.'] then
    match out with
    | top :: below => if top = ['.', '.'] then e :: out else below
    | [] => if rooted then [] else [e]
  else e :: out

/-- Go's `path.Clean`: the shortest path equivalent to `p` by lexical
processing (single slashes, no `.` element, no inner `..` element, no `..` at
the root, `"."` for the empty result). -/
def Clean (p : String) : String :=
  if p = "" then "."
  else
    let rooted := p.data.head? == some '/'
    let out := (splitSlash p.data).foldl (cleanStep rooted) []
    let body := List.intercalate ['/'] out.reverse
    if rooted then String.mk ('/' :: body)
    else if body = [] then "." else String.mk body

end path

namespace filepath

/-- Go's `filepath.Join` on Unix: the elements from the first non-empty one on,
joined by the separator, and the result cleaned; `""` when all are empty. -/
def Join (elem : List String) : String :=
  match elem.dropWhile (fun e => e = "") with
  | [] => ""
  | es => path.Clean (String.mk (List.intercalate ['/'] (es.map String.data)))

end filepath

/-! ## The file system and package `io/ioutil` -/

/-- A state of the file system as the program sees it: the regular files by
name with their content, and the names the system refuses to create or open for
writing, with the error it gives. Permission bits of existing files and the
ways a write can fail half-way are not part of the model: a refused write
changes nothing and a file that is there can be read. -/
structure FileSystem where
  files : String → Option ByteArray
  refuses : String → Option String

namespace ioutil

/-- Go's `ioutil.ReadFile`. -/
def ReadFile (fs : FileSystem) (filename : String) : Except String ByteArray :=
  match fs.files filename with
  | some data => .ok data
  | none => .error ("open " ++ filename ++ ": no such file or directory")

/-- Go's `ioutil.WriteFile`: creates the file or truncates it, then writes
`data`. Returns the error (`none` is `nil`) and the file system afterwards. -/
def WriteFile (fs : FileSystem) (filename : String) (data : ByteArray) (_perm : Nat) :
    Option String × FileSystem :=
  match fs.refuses filename with
  | some e => (some e, fs)
  | none => (none, { fs with files := fun f => if f = filename then some data else fs.files f })

end ioutil

/-! ## The program: data and page store -/

/-- The type `Page` of the program. -/
structure Page where
  Title : String
  Body : ByteArray

def templatesDir : String := "templates"
def includesDir : String := "includes"
def templateFormat : String := ".html"
def dataDir : String := "data"
def dataFormat : String := ".md"
def frontPage : String := "FrontPage"

/-- The method `(p *Page) save()`. -/
def Page.save (p : Page) (fs : FileSystem) : Option String × FileSystem :=
  let filename := p.Title ++ dataFormat
  ioutil.WriteFile fs (filepath.Join [dataDir, filename]) p.Body 0o600

/-- The function `loadPage`: the page, or the error of the read. -/
def loadPage (title : String) (fs : FileSystem) : Except String Page :=
  let filename := title ++ dataFormat
  match ioutil.ReadFile fs (filepath.Join [dataDir, filename]) with
  | .error err => .error err
  | .ok body => .ok { Title := title, Body := body }

/-! ## Package `html/template` and package `net/http` -/

/-- A parsed template unit (`*template.Template`), known by what executing one
of its entry points on a page does: the output it writes and the error it
returns (`none` is `nil`). -/
structure Template where
  ExecuteTemplate : String → Page → String × Option String

/-- A call made on the `http.ResponseWriter` of a request. -/
inductive Call where
  /-- The call `w.Header().Set(key, value)`. -/
  | setHeader (key value : String)
  /-- The call `t.ExecuteTemplate(w, name, data)`, which streams the output to `w`. -/
  | executeTemplate (t : Template) (name : String) (data : Page)
  /-- The call `http.Error(w, msg, code)`: replies with the status `code` and the body `msg`. -/
  | error (msg : String) (code : Nat)
  /-- The call `http.Redirect(w, r, url, code)`: replies with the status `code` and the
  target `url`. -/
  | redirect (url : String) (code : Nat)
  /-- The call `http.NotFound(w, r)`: replies with the status 404. -/
  | notFound
  /-- The file server of directory `root` is asked for `upath`. -/
  | serveFile (root upath : String)

/-- The `*http.Request`, as far as the program reads it: the method,
`r.URL.Path` and the parsed form. -/
structure Request where
  Method : String
  Path : String
  Form : List (String × String)

def Request.FormValue (r : Request) (key : String) : String :=
  (r.Form.lookup key).getD ""

/-- What the program's functions read and change while a request is served:
the global `templates`, the file system, and the response writer `w`. -/
structure State where
  templates : List (String × Template)
  fs : FileSystem
  w : List Call

namespace http

def StatusOK : Nat := 200
def StatusMovedPermanently : Nat := 301
def StatusFound : Nat := 302
def StatusNotFound : Nat := 404
def StatusInternalServerError : Nat := 500

def Error (msg : String) (code : Nat) (s : State) : State :=
  { s with w := s.w ++ [.error msg code] }

def Redirect (_r : Request) (url : String) (code : Nat) (s : State) : State :=
  { s with w := s.w ++ [.redirect url code] }

def NotFound (_r : Request) (s : State) : State :=
  { s with w := s.w ++ [.notFound] }

/-- The status a call puts on the wire if it is the first to write: `none` if
it writes nothing, or for the file server, whose answer is not modelled. -/
def callStatus : Call → Option Nat
  | .setHeader _ _ => none
  | .executeTemplate t name data => if (t.ExecuteTemplate name data).1 = "" then none else some StatusOK
  | .error _ code => some code
  | .redirect _ code => some code
  | .notFound => some StatusNotFound
  | .serveFile _ _ => none

/-- The status line of the response: that of the first call that writes one
(a later `WriteHeader` is ignored by the server). -/
def statusCode (w : List Call) : Option Nat :=
  w.findSome? callStatus

end http

/-! ## The program: templates and handlers -/

/-- The function `renderTemplate`: the error it returns (`none` is `nil`) and
the state afterwards. -/
def renderTemplate (tmpl : String) (p : Page) (s : State) : Option String × State :=
  match s.templates.lookup tmpl with
  | none => (some ("The template " ++ tmpl ++ " does not exist."), s)
  | some template =>
    let s : State := { s with w := s.w ++ [Call.setHeader "Content-Type" "text/html; charset=utf-8"] }
    let err := (template.ExecuteTemplate "base" p).2
    let s : State := { s with w := s.w ++ [Call.executeTemplate template "base" p] }
    match err with
    | some e => (some e, http.Error e http.StatusInternalServerError s)
    | none => (none, s)

def viewHandler (r : Request) (title : String) (s : State) : State :=
  match loadPage title s.fs with
  | .error _ => http.Redirect r ("/edit/" ++ title) http.StatusFound s
  | .ok p => (renderTemplate "view.html" p s).2

def editHandler (_r : Request) (title : String) (s : State) : State :=
  let p : Page :=
    match loadPage title s.fs with
    | .error _ => { Title := title, Body := ByteArray.empty }
    | .ok p => p
  (renderTemplate "edit.html" p s).2

/-- The function `saveHandler`. After `http.Error` the source does not return,
so the redirect follows in either case. -/
def saveHandler (r : Request) (title : String) (s : State) : State :=
  let body := r.FormValue "body"
  let p : Page := { Title := title, Body := body.toUTF8 }
  let (err, fs) := p.save s.fs
  let s : State := { s with fs := fs }
  let s : State :=
    match err with
    | some e => http.Error e http.StatusInternalServerError s
    | none => s
  http.Redirect r ("/view/" ++ title) http.StatusFound s

def rootHandler (r : Request) (s : State) : State :=
  http.Redirect r ("/view/" ++ frontPage) http.StatusFound s

/-- The function `makeHandler`; `m.getD 2 ""` is `m[2]`. -/
def makeHandler (fn : Request → String → State → State) : Request → State → State :=
  fun r s =>
    match validPath.FindStringSubmatch r.Path with
    | none => http.NotFound r s
    | some m => fn r (m.getD 2 "") s

/-! ## Package `net/http`: the request multiplexer -/

namespace http

abbrev Handler := Request → State → State

structure muxEntry where
  pattern : String
  h : Handler

/-- A `ServeMux`: its registrations, in the order they were made. -/
abbrev ServeMux := List muxEntry

def ServeMux.Handle (mux : ServeMux) (pattern : String) (handler : Handler) : ServeMux :=
  mux ++ [⟨pattern, handler⟩]

/-- The canonical form of a request path: rooted, cleaned, and with the
trailing slash kept. -/
def cleanPath (p : String) : String :=
  if p = "" then "/"
  else
    let p := if p.data.head? = some '/' then p else "/" ++ p
    let np := path.Clean p
    if p.data.getLast? = some '/' ∧ np ≠ "/" then np ++ "/" else np

/-- Of two entries, the one with the longer pattern. -/
def longer (best : Option muxEntry) (e : muxEntry) : Option muxEntry :=
  match best with
  | none => some e
  | some b => if b.pattern.length < e.pattern.length then some e else some b

/-- The entry that serves a path: the one registered for exactly this path, or
else, among the patterns that end in a slash and are a prefix of the path, the
longest. -/
def ServeMux.findMatch (mux : ServeMux) (path : String) : Option muxEntry :=
  match mux.find? (fun e => e.pattern = path) with
  | some e => some e
  | none =>
    (mux.filter fun e =>
      e.pattern.data.getLast? = some '/' && strings.HasPrefix path e.pattern).foldl longer none

def ServeMux.handler (mux : ServeMux) (path : String) : Handler :=
  match mux.findMatch path with
  | some e => e.h
  | none => NotFound

/-- Is the path a registered subtree named without its trailing slash (and not
registered itself)? -/
def ServeMux.shouldRedirect (mux : ServeMux) (path : String) : Bool :=
  !mux.any (fun e => e.pattern = path) && path != "" &&
    mux.any (fun e => e.pattern = path ++ "/") && path.data.getLast? != some '/'

/-- The multiplexer serves a request: a subtree root without its slash and a
path that is not canonical are answered by a 301 redirect to the right path
(the model leaves the query string and the escaping of the target out), any
other request goes to the handler of the matching pattern. `CONNECT` requests
are not canonicalized. -/
def ServeMux.ServeHTTP (mux : ServeMux) (r : Request) (s : State) : State :=
  if r.Method = "CONNECT" then
    if mux.shouldRedirect r.Path then Redirect r (r.Path ++ "/") StatusMovedPermanently s
    else mux.handler r.Path r s
  else
    let path := cleanPath r.Path
    if mux.shouldRedirect path then Redirect r (path ++ "/") StatusMovedPermanently s
    else if path ≠ r.Path then Redirect r path StatusMovedPermanently s
    else mux.handler r.Path r s

/-- The file server of a directory, not modelled further. -/
def FileServer (root : String) : Handler :=
  fun r s => { s with w := s.w ++ [.serveFile root r.Path] }

def StripPrefix (pre : String) (h : Handler) : Handler :=
  if pre = "" then h
  else fun r s =>
    if strings.HasPrefix r.Path pre then
      h { r with Path := String.mk (r.Path.data.drop pre.length) } s
    else NotFound r s

end http

/-! ## The program: `main` -/

/-- The registrations `main` makes on the default multiplexer, with the three
page handlers left open. -/
def mainWith (view edit save : Request → String → State → State) : http.ServeMux :=
  let fs := http.FileServer "static"
  let mux : http.ServeMux := []
  let mux := mux.Handle "/" rootHandler
  let mux := mux.Handle "/static/" (http.StripPrefix "/static/" fs)
  let mux := mux.Handle "/view/" (makeHandler view)
  let mux := mux.Handle "/edit/" (makeHandler edit)
  let mux := mux.Handle "/save/" (makeHandler save)
  mux

/-- The multiplexer `main` listens with. The first part of `main`, which fills
the registry `templates` from the template files, is not modelled: the registry
it leaves behind is the field `templates` of the state. -/
def main : http.ServeMux :=
  mainWith viewHandler editHandler saveHandler

/-! ## Package `net/http`: what the client receives -/

namespace http

/-- The server's side of a `http.ResponseWriter`: the header map `Header()`
returns, the status and the headers fixed by the first `WriteHeader` (`none`
until then), and the body written so far. -/
structure Writer where
  header : List (String × String)
  wrote : Option (Nat × List (String × String))
  body : String

/-- The method `Header.Set`. -/
def headerSet (h : List (String × String)) (key value : String) : List (String × String) :=
  (key, value) :: h.filter fun kv => kv.1 != key

/-- The method `WriteHeader`: the first call fixes the status and the headers
sent, a later call is ignored. -/
def Writer.WriteHeader (w : Writer) (code : Nat) : Writer :=
  match w.wrote with
  | some _ => w
  | none => { w with wrote := some (code, w.header) }

/-- The method `Write`: writes the header with status 200 first if none was
written. -/
def Writer.Write (w : Writer) (data : String) : Writer :=
  let w := w.WriteHeader StatusOK
  { w with body := w.body ++ data }

/-- The text for a status code, for the codes the program uses. -/
def StatusText (code : Nat) : String :=
  if code = 301 then "Moved Permanently"
  else if code = 302 then "Found"
  else if code = 404 then "Not Found"
  else if code = 500 then "Internal Server Error"
  else ""

/-- The escaping of the five characters HTML reserves. -/
def htmlEscape (s : String) : String :=
  String.mk (s.data.flatMap fun c =>
    if c = '&' then "&amp;".data
    else if c = '<' then "&lt;".data
    else if c = '>' then "&gt;".data
    else if c = Char.ofNat 34 then "&#34;".data
    else if c = Char.ofNat 39 then "&#39;".data
    else [c])

/-- What one call of the program does to the writer. `http.Error` sets the
content type, writes the header and prints the message on a line;
`http.Redirect` sets `Location`, writes the header, and adds its short note as
body only to a `GET` request on which no content type was set before. The
cleaning and the escaping of a redirect target, the sniffing of a content type
and the answer of the file server are left out. -/
def perform (r : Request) (w : Writer) : Call → Writer
  | .setHeader key value => { w with header := headerSet w.header key value }
  | .executeTemplate t name data =>
    if (t.ExecuteTemplate name data).1 = "" then w else w.Write (t.ExecuteTemplate name data).1
  | .error msg code =>
    let h := headerSet w.header "Content-Type" "text/plain; charset=utf-8"
    let h := headerSet h "X-Content-Type-Options" "nosniff"
    let w := Writer.WriteHeader { w with header := h } code
    w.Write (msg ++ "\n")
  | .redirect url code =>
    let hadCT := (w.header.lookup "Content-Type").isSome
    let h := headerSet w.header "Location" url
    let h :=
      if !hadCT && (r.Method == "GET" || r.Method == "HEAD") then
        headerSet h "Content-Type" "text/html; charset=utf-8"
      else h
    let w := Writer.WriteHeader { w with header := h } code
    if !hadCT && r.Method == "GET" then
      w.Write ("<a href=\"" ++ htmlEscape url ++ "\">" ++ StatusText code ++ "</a>.\n" ++ "\n")
    else w
  | .notFound =>
    let h := headerSet w.header "Content-Type" "text/plain; charset=utf-8"
    let h := headerSet h "X-Content-Type-Options" "nosniff"
    let w := Writer.WriteHeader { w with header := h } StatusNotFound
    w.Write ("404 page not found" ++ "\n")
  | .serveFile _ _ => w

/-- The response on the wire: status line, headers sent, body. -/
structure Response where
  status : Nat
  header : List (String × String)
  body : String

/-- The response a client receives when the handler has made the calls `calls`
on a fresh writer: if the handler never wrote a header the server sends 200
with the headers set by then. -/
def respond (r : Request) (calls : List Call) : Response :=
  let w := calls.foldl (perform r) { header := [], wrote := none, body := "" }
  match w.wrote with
  | some (code, h) => { status := code, header := h, body := w.body }
  | none => { status := StatusOK, header := w.header, body := w.body }

end http

/-! ## Definitions used to state and to test the results -/

namespace regexp

/-- The three verbs of the route pattern, as character lists. -/
def verbs : List (List Char) := ["edit".data, "save".data, "view".data]

end regexp

namespace path

/-- An element that `Clean` keeps as it is: not empty, not `.` and not `..`. -/
def plain (e : List Char) : Prop :=
  e ≠ [] ∧ e ≠ ['.'] ∧ e ≠ ['.', '.']

end path

/-- The title of a page route: not empty, ASCII letters and digits only. -/
abbrev isToken (t : String) : Prop :=
  t ≠ "" ∧ ∀ c ∈ t.data, c.isAlphanum = true

/-- A file system with no file in it that refuses nothing. -/
def emptyFS : FileSystem :=
  { files := fun _ => none, refuses := fun _ => none }

/-- A file system with no file in it that refuses every write. -/
def readOnlyFS : FileSystem :=
  { files := fun _ => none, refuses := fun f => some ("open " ++ f ++ ": permission denied") }

/-- A state with no template, no file and a fresh writer. -/
def emptyState : State :=
  { templates := [], fs := emptyFS, w := [] }

/-- A template unit whose execution writes a fixed text and succeeds. -/
def okTemplate : Template :=
  { ExecuteTemplate := fun _ _ => ("<html></html>", none) }

/-- A template unit whose execution fails before it writes anything. -/
def failingTemplate : Template :=
  { ExecuteTemplate := fun _ _ => ("", some "html/template: \"base\" is undefined") }

/-- A state with a fresh writer and no file whose `edit.html` fails to execute. -/
def brokenState : State :=
  { templates := [("edit.html", failingTemplate)], fs := emptyFS, w := [] }

/-- A file system that holds the page `Home` and refuses nothing. -/
def homeFS : FileSystem :=
  { files := fun f => if f = "data/Home.md" then some "hi".toUTF8 else none,
    refuses := fun _ => none }

/-- A state with a fresh writer and no template whose file system refuses every
write. -/
def readOnlyState : State :=
  { templates := [], fs := readOnlyFS, w := [] }

/-- A state whose registry holds the two templates of the program. -/
def readyState : State :=
  { templates := [("view.html", okTemplate), ("edit.html", okTemplate)], fs := emptyFS, w := [] }

/-! # Theorems -/

/-! ## What the regular expression engine computes -/

namespace regexp

theorem inClass_alnum (c : Char) :
    inClass [('a', 'z'), ('A', 'Z'), ('0', '9')] c = c.isAlphanum := by
  simp only [inClass, List.any_cons, List.any_nil, Bool.or_false, Char.isAlphanum, Char.isAlpha,
    Char.isUpper, Char.isLower, Char.isDigit, Char.le_def, ge_iff_le]
  have e1 : ('a' : Char).val = 97 := rfl
  have e2 : ('z' : Char).val = 122 := rfl
  have e3 : ('A' : Char).val = 65 := rfl
  have e4 : ('Z' : Char).val = 90 := rfl
  have e5 : ('0' : Char).val = 48 := rfl
  have e6 : ('9' : Char).val = 57 := rfl
  rw [e1, e2, e3, e4, e5, e6]
  cases decide (97 ≤ c.val) <;> cases decide (c.val ≤ 122) <;> cases decide (65 ≤ c.val) <;>
    cases decide (c.val ≤ 90) <;> cases decide (48 ≤ c.val) <;> cases decide (c.val ≤ 57) <;> rfl

theorem mem_run_str (cs : List Char) (t u : Thread) :
    u ∈ (Regexp.str cs).run t ↔
      ∃ r, t.rest = cs ++ r ∧ u = ⟨t.pos + cs.length, r, t.caps⟩ := by
  induction cs generalizing t with
  | nil =>
    obtain ⟨p, r, c⟩ := t
    simp [Regexp.str, Regexp.run]
  | cons c cs ih =>
    obtain ⟨p, r, cp⟩ := t
    cases r with
    | nil => simp [Regexp.str, Regexp.run]
    | cons x xs =>
      by_cases hx : x = c
      · subst hx
        simp [Regexp.str, Regexp.run, ih, Nat.add_assoc, Nat.add_comm 1]
      · have hx2 : ¬ c = x := fun h => hx h.symm
        simp [Regexp.str, Regexp.run, hx, hx2]

theorem mem_plusLoop_cls (rs : List (Char × Char)) (n : Nat) (t u : Thread) :
    u ∈ plusLoop (fun v => (Regexp.cls rs).run v) n t ↔
      ∃ k, 1 ≤ k ∧ k ≤ n ∧ k ≤ t.rest.length ∧ (∀ c ∈ t.rest.take k, inClass rs c = true) ∧
        u = ⟨t.pos + k, t.rest.drop k, t.caps⟩ := by
  generalize hstep : (fun v => (Regexp.cls rs).run v) = step
  have hnil : ∀ p cp, step ⟨p, [], cp⟩ = [] := by
    intro p cp; rw [← hstep]; rfl
  have hcons : ∀ p x xs cp, step ⟨p, x :: xs, cp⟩ =
      if inClass rs x = true then [⟨p + 1, xs, cp⟩] else [] := by
    intro p x xs cp; rw [← hstep]; rfl
  induction n generalizing t with
  | zero =>
    simp only [plusLoop, List.not_mem_nil, false_iff]
    rintro ⟨k, h1, h2, -⟩
    omega
  | succ n ih =>
    obtain ⟨p, r, cp⟩ := t
    cases r with
    | nil =>
      simp only [plusLoop, hnil, List.flatMap_nil, List.not_mem_nil, false_iff]
      rintro ⟨k, h1, -, h3, -⟩
      simp at h3
      omega
    | cons x xs =>
      by_cases hx : inClass rs x = true
      · simp only [plusLoop, hcons, hx, if_true, List.flatMap_cons, List.flatMap_nil,
          List.append_nil, List.mem_append, List.mem_singleton, ih]
        constructor
        · rintro (⟨k, h1, h2, h3, h4, rfl⟩ | rfl)
          · refine ⟨k + 1, by omega, by omega, by simpa using h3, ?_, ?_⟩
            · intro c hc
              simp only [List.take_succ_cons, List.mem_cons] at hc
              rcases hc with rfl | hc
              · exact hx
              · exact h4 c hc
            · simp [Nat.add_assoc, Nat.add_comm 1]
          · exact ⟨1, le_refl _, by omega, by simp, by simpa using hx, by simp⟩
        · rintro ⟨k, h1, h2, h3, h4, rfl⟩
          rcases Nat.lt_or_ge 1 k with hk | hk
          · left
            obtain ⟨j, rfl⟩ : ∃ j, k = j + 1 := ⟨k - 1, by omega⟩
            refine ⟨j, by omega, by omega, by simpa using h3, ?_, ?_⟩
            · intro c hc
              exact h4 c (by simp [hc])
            · simp [Nat.add_assoc, Nat.add_comm 1]
          · right
            obtain rfl : k = 1 := by omega
            simp
      · simp only [plusLoop, hcons, hx, Bool.false_eq_true, if_false, List.flatMap_nil,
          List.not_mem_nil, false_iff]
        rintro ⟨k, h1, -, -, h4, -⟩
        obtain ⟨j, rfl⟩ : ∃ j, k = j + 1 := ⟨k - 1, by omega⟩
        exact hx (h4 x (by simp))

theorem mem_run_plus_cls (rs : List (Char × Char)) (t u : Thread) :
    u ∈ (Regexp.plus (Regexp.cls rs)).run t ↔
      ∃ k, 1 ≤ k ∧ k ≤ t.rest.length ∧ (∀ c ∈ t.rest.take k, inClass rs c = true) ∧
        u = ⟨t.pos + k, t.rest.drop k, t.caps⟩ := by
  have h : (Regexp.plus (Regexp.cls rs)).run t =
      plusLoop (fun v => (Regexp.cls rs).run v) t.rest.length t := rfl
  rw [h, mem_plusLoop_cls]
  constructor
  · rintro ⟨k, h1, -, h3, h4, h5⟩
    exact ⟨k, h1, h3, h4, h5⟩
  · rintro ⟨k, h1, h3, h4, h5⟩
    exact ⟨k, h1, h3, h3, h4, h5⟩

theorem mem_run_lit (c : Char) (t u : Thread) :
    u ∈ (Regexp.lit c).run t ↔ ∃ xs, t.rest = c :: xs ∧ u = ⟨t.pos + 1, xs, t.caps⟩ := by
  obtain ⟨p, r, cp⟩ := t
  cases r with
  | nil => simp [Regexp.run]
  | cons x xs =>
    by_cases hx : x = c
    · subst hx
      simp [Regexp.run]
    · simp [Regexp.run, hx]

theorem mem_run_endText (t u : Thread) :
    u ∈ Regexp.endText.run t ↔ t.rest = [] ∧ u = t := by
  obtain ⟨p, r, cp⟩ := t
  cases r <;> simp [Regexp.run]

theorem mem_run_beginText (t u : Thread) :
    u ∈ Regexp.beginText.run t ↔ t.pos = 0 ∧ u = t := by
  by_cases h : t.pos = 0 <;> simp [Regexp.run, h]

theorem mem_run_cat (a b : Regexp) (t u : Thread) :
    u ∈ (Regexp.cat a b).run t ↔ ∃ v, v ∈ a.run t ∧ u ∈ b.run v := by
  simp [Regexp.run, List.mem_flatMap]

theorem mem_run_alt (a b : Regexp) (t u : Thread) :
    u ∈ (Regexp.alt a b).run t ↔ u ∈ a.run t ∨ u ∈ b.run t := by
  simp [Regexp.run]

theorem mem_run_cap (i : Nat) (a : Regexp) (t u : Thread) :
    u ∈ (Regexp.cap i a).run t ↔
      ∃ v, v ∈ a.run t ∧ u = { v with caps := (i, t.rest.take (v.pos - t.pos)) :: v.caps } := by
  simp only [Regexp.run, List.mem_map]
  constructor
  · rintro ⟨v, hv, rfl⟩
    exact ⟨v, hv, rfl⟩
  · rintro ⟨v, hv, rfl⟩
    exact ⟨v, hv, rfl⟩

theorem length_of_mem_verbs {v : List Char} (h : v ∈ verbs) : v.length = 4 := by
  simp only [verbs, List.mem_cons, List.mem_singleton, List.not_mem_nil, or_false] at h
  rcases h with rfl | rfl | rfl <;> rfl

theorem mem_run_validPath (l : List Char) (u : Thread) :
    u ∈ validPath.run ⟨0, l, []⟩ ↔
      ∃ v t, v ∈ verbs ∧ t ≠ [] ∧ (∀ c ∈ t, c.isAlphanum = true) ∧
        l = '/' :: (v ++ '/' :: t) ∧ u = ⟨l.length, [], [(2, t), (1, v)]⟩ := by
  simp only [validPath, mem_run_cat, mem_run_beginText, mem_run_lit, mem_run_cap, mem_run_alt,
    mem_run_str, mem_run_plus_cls, mem_run_endText, inClass_alnum]
  constructor
  · rintro ⟨t1, ⟨-, rfl⟩, t2, ⟨l1, hl1, rfl⟩, t3, ⟨t3', h3, rfl⟩, t4, ⟨l4, hl4, rfl⟩, t5,
      ⟨t5', ⟨k, hk1, hk2, hk3, rfl⟩, rfl⟩, h6, rfl⟩
    simp only at hl1 hl4 h6 hk2 hk3 h3 ⊢
    subst hl1
    have hk : k = l4.length := by
      have := List.drop_eq_nil_iff.mp h6
      omega
    subst hk
    have hne : l4 ≠ [] := by
      intro h
      rw [h] at hk1
      simp at hk1
    rw [List.take_length] at hk3
    rcases h3 with ⟨r, rfl, rfl⟩ | ⟨r, rfl, rfl⟩ | ⟨r, rfl, rfl⟩
    · simp only at hl4
      subst hl4
      refine ⟨['e', 'd', 'i', 't'], l4, by simp [verbs], hne, hk3, by simp, ?_⟩
      simp [Nat.add_comm, Nat.add_left_comm]
    · simp only at hl4
      subst hl4
      refine ⟨['s', 'a', 'v', 'e'], l4, by simp [verbs], hne, hk3, by simp, ?_⟩
      simp [Nat.add_comm, Nat.add_left_comm]
    · simp only at hl4
      subst hl4
      refine ⟨['v', 'i', 'e', 'w'], l4, by simp [verbs], hne, hk3, by simp, ?_⟩
      simp [Nat.add_comm, Nat.add_left_comm]
  · rintro ⟨v, t, hv, hne, hal, rfl, rfl⟩
    have hlen : 1 ≤ t.length := by
      cases t with
      | nil => exact absurd rfl hne
      | cons _ _ => simp
    refine ⟨_, ⟨trivial, rfl⟩, _, ⟨v ++ '/' :: t, rfl, rfl⟩, _,
      ⟨⟨0 + 1 + v.length, '/' :: t, []⟩, ?_, rfl⟩, _, ⟨t, rfl, rfl⟩, _,
      ⟨_, ⟨t.length, hlen, le_refl _, by simpa using hal, rfl⟩, rfl⟩, by simp, ?_⟩
    · simp only [verbs, List.mem_cons, List.mem_singleton, List.not_mem_nil, or_false] at hv
      rcases hv with rfl | rfl | rfl
      · exact Or.inl ⟨_, rfl, rfl⟩
      · exact Or.inr (Or.inl ⟨_, rfl, rfl⟩)
      · exact Or.inr (Or.inr ⟨_, rfl, rfl⟩)
    · simp [Nat.add_comm, Nat.add_left_comm]
      omega

theorem run_validPath_succ (pos : Nat) (l : List Char) :
    validPath.run ⟨pos + 1, l, []⟩ = [] := by
  rw [List.eq_nil_iff_forall_not_mem]
  intro u hu
  simp only [validPath, mem_run_cat, mem_run_beginText] at hu
  obtain ⟨_, ⟨h, -⟩, -⟩ := hu
  simp at h

theorem leftmost_validPath_succ (pos : Nat) (l : List Char) :
    leftmost validPath (pos + 1) l = none := by
  induction l generalizing pos with
  | nil => simp [leftmost, run_validPath_succ]
  | cons c cs ih => simp [leftmost, run_validPath_succ, ih]

theorem leftmost_validPath_some (l : List Char) (m : List Char × Thread)
    (h : leftmost validPath 0 l = some m) :
    m.1 = l ∧ m.2 ∈ validPath.run ⟨0, l, []⟩ := by
  cases l with
  | nil =>
    cases hr : validPath.run ⟨0, [], []⟩ with
    | nil => simp [leftmost, hr] at h
    | cons u us =>
      have hu : u ∈ validPath.run ⟨0, [], []⟩ := by simp [hr]
      rw [mem_run_validPath] at hu
      obtain ⟨v, t, -, -, -, hl, -⟩ := hu
      simp at hl
  | cons c cs =>
    cases hr : validPath.run ⟨0, c :: cs, []⟩ with
    | nil => simp [leftmost, hr, leftmost_validPath_succ] at h
    | cons u us =>
      have hu : u ∈ validPath.run ⟨0, c :: cs, []⟩ := by simp [hr]
      simp only [leftmost, hr, List.head?_cons, Option.some.injEq] at h
      subst h
      refine ⟨?_, by simp⟩
      rw [mem_run_validPath] at hu
      obtain ⟨v, t, -, -, -, -, rfl⟩ := hu
      simp

theorem leftmost_validPath_match (v t : List Char) (hv : v ∈ verbs) (hne : t ≠ [])
    (hal : ∀ c ∈ t, c.isAlphanum = true) :
    leftmost validPath 0 ('/' :: (v ++ '/' :: t)) =
      some ('/' :: (v ++ '/' :: t), ⟨('/' :: (v ++ '/' :: t)).length, [], [(2, t), (1, v)]⟩) := by
  have hmem := (mem_run_validPath ('/' :: (v ++ '/' :: t))
    ⟨('/' :: (v ++ '/' :: t)).length, [], [(2, t), (1, v)]⟩).mpr ⟨v, t, hv, hne, hal, rfl, rfl⟩
  cases hr : validPath.run ⟨0, '/' :: (v ++ '/' :: t), []⟩ with
  | nil => rw [hr] at hmem; simp at hmem
  | cons u us =>
    have hu : u ∈ validPath.run ⟨0, '/' :: (v ++ '/' :: t), []⟩ := by simp [hr]
    rw [mem_run_validPath] at hu
    obtain ⟨v', t', hv', -, -, hl, rfl⟩ := hu
    have hlen : v.length = v'.length := by rw [length_of_mem_verbs hv, length_of_mem_verbs hv']
    obtain ⟨rfl, h2⟩ := List.append_inj (List.cons.inj hl).2 hlen
    obtain rfl := (List.cons.inj h2).2
    simp [leftmost, hr]

end regexp

/-! ## What `validPath` accepts -/

theorem validPath_NumSubexp : validPath.NumSubexp = 2 := by decide

/-- A path of the form `/verb/token` is matched whole, with the verb and the
token as the two groups. -/
theorem FindStringSubmatch_route (v t : String)
    (hv : v = "edit" ∨ v = "save" ∨ v = "view") (hne : t ≠ "")
    (hal : ∀ c ∈ t.data, c.isAlphanum = true) :
    validPath.FindStringSubmatch ("/" ++ v ++ "/" ++ t) = some ["/" ++ v ++ "/" ++ t, v, t] := by
  have hv' : v.data ∈ regexp.verbs := by
    rcases hv with rfl | rfl | rfl <;> simp [regexp.verbs]
  have hne' : t.data ≠ [] := fun h => hne (String.ext h)
  have hd : ("/" ++ v ++ "/" ++ t).data = '/' :: (v.data ++ '/' :: t.data) := by
    simp [String.data_append]
  have hm := regexp.leftmost_validPath_match v.data t.data hv' hne' hal
  have hr : List.range 2 = [0, 1] := rfl
  have hs : String.mk ('/' :: (v.data ++ '/' :: t.data)) = "/" ++ v ++ "/" ++ t :=
    String.ext hd.symm
  simp only [regexp.Regexp.FindStringSubmatch, hd, hm, Option.map_some', validPath_NumSubexp, hr,
    List.map_cons, List.map_nil, hs]
  rfl

/-- Whatever `validPath` matches is a path of the form `/verb/token`. -/
theorem FindStringSubmatch_some (p : String) (m : List String)
    (h : validPath.FindStringSubmatch p = some m) :
    ∃ v t : String, (v = "edit" ∨ v = "save" ∨ v = "view") ∧ t ≠ "" ∧
      (∀ c ∈ t.data, c.isAlphanum = true) ∧ p = "/" ++ v ++ "/" ++ t := by
  simp only [regexp.Regexp.FindStringSubmatch, Option.map_eq_some'] at h
  obtain ⟨m', hm', -⟩ := h
  obtain ⟨-, hmem⟩ := regexp.leftmost_validPath_some _ _ hm'
  rw [regexp.mem_run_validPath] at hmem
  obtain ⟨v, t, hv, hne, hal, hl, -⟩ := hmem
  refine ⟨String.mk v, String.mk t, ?_, ?_, hal, ?_⟩
  · simp only [regexp.verbs, List.mem_cons, List.mem_singleton, List.not_mem_nil, or_false] at hv
    rcases hv with rfl | rfl | rfl
    · exact Or.inl rfl
    · exact Or.inr (Or.inl rfl)
    · exact Or.inr (Or.inr rfl)
  · intro h
    exact hne (congrArg String.data h)
  · apply String.ext
    simp [String.data_append, hl]

/-! ## Cleaning a path of two plain elements -/

namespace path

theorem splitSlash_plain {a : List Char} (ha : '/' ∉ a) : splitSlash a = [a] := by
  induction a with
  | nil => rfl
  | cons c cs ih =>
    simp only [List.mem_cons, not_or] at ha
    have hc : ¬ c = '/' := fun h => ha.1 h.symm
    simp [splitSlash, hc, ih ha.2]

theorem splitSlash_append {a : List Char} (ha : '/' ∉ a) (b : List Char) :
    splitSlash (a ++ '/' :: b) = a :: splitSlash b := by
  induction a with
  | nil => simp [splitSlash]
  | cons c cs ih =>
    simp only [List.mem_cons, not_or] at ha
    have hc : ¬ c = '/' := fun h => ha.1 h.symm
    simp [splitSlash, hc, ih ha.2]

theorem cleanStep_plain (rooted : Bool) (out : List (List Char)) {e : List Char}
    (he : plain e) : cleanStep rooted out e = e :: out := by
  obtain ⟨h1, h2, h3⟩ := he
  simp [cleanStep, h1, h2, h3]

theorem Clean_relative {a b : List Char} (ha : '/' ∉ a) (hb : '/' ∉ b)
    (pa : plain a) (pb : plain b) :
    Clean (String.mk (a ++ '/' :: b)) = String.mk (a ++ '/' :: b) := by
  have hne : String.mk (a ++ '/' :: b) ≠ "" := by
    intro h
    have := congrArg String.data h
    simp at this
  have hhead : ((a ++ '/' :: b).head? == some '/') = false := by
    cases a with
    | nil => exact absurd rfl pa.1
    | cons c cs =>
      simp only [List.mem_cons, not_or] at ha
      have hc : ¬ c = '/' := fun h => ha.1 h.symm
      simp [hc]
  have hf : (splitSlash (a ++ '/' :: b)).foldl (cleanStep false) [] = [b, a] := by
    rw [splitSlash_append ha, splitSlash_plain hb]
    simp only [List.foldl, cleanStep_plain _ _ pa, cleanStep_plain _ _ pb]
  have hi : List.intercalate ['/'] [b, a].reverse = a ++ '/' :: b := by
    simp [List.intercalate]
  unfold Clean
  rw [if_neg hne]
  simp only [hhead, hf, hi]
  simp

theorem Clean_rooted {a b : List Char} (ha : '/' ∉ a) (hb : '/' ∉ b)
    (pa : plain a) (pb : plain b) :
    Clean (String.mk ('/' :: (a ++ '/' :: b))) = String.mk ('/' :: (a ++ '/' :: b)) := by
  have hne : String.mk ('/' :: (a ++ '/' :: b)) ≠ "" := by
    intro h
    have := congrArg String.data h
    simp at this
  have hs : splitSlash ('/' :: (a ++ '/' :: b)) = [[], a, b] := by
    have h := splitSlash_append (a := []) (by simp) (a ++ '/' :: b)
    simp only [List.nil_append] at h
    rw [h, splitSlash_append ha, splitSlash_plain hb]
  have hf : (splitSlash ('/' :: (a ++ '/' :: b))).foldl (cleanStep true) [] = [b, a] := by
    rw [hs]
    have h0 : cleanStep true [] [] = [] := by simp [cleanStep]
    simp only [List.foldl, h0, cleanStep_plain _ _ pa, cleanStep_plain _ _ pb]
  have hi : List.intercalate ['/'] [b, a].reverse = a ++ '/' :: b := by
    simp [List.intercalate]
  unfold Clean
  rw [if_neg hne]
  simp only [List.head?_cons, beq_self_eq_true, if_true]
  rw [hf, hi]

theorem plain_of_alnum {t : List Char} (hne : t ≠ []) (hal : ∀ c ∈ t, c.isAlphanum = true) :
    plain t := by
  cases t with
  | nil => exact absurd rfl hne
  | cons c cs =>
    have hc : c.isAlphanum = true := hal c (by simp)
    have hdot : c ≠ '.' := by
      rintro rfl
      exact absurd hc (by decide)
    refine ⟨by simp, ?_, ?_⟩ <;> simp [hdot]

theorem no_slash_of_alnum {t : List Char} (hal : ∀ c ∈ t, c.isAlphanum = true) : '/' ∉ t :=
  fun h => absurd (hal _ h) (by decide)

end path

theorem plain_of_mem_verbs {v : List Char} (h : v ∈ regexp.verbs) : path.plain v ∧ '/' ∉ v := by
  simp only [regexp.verbs, List.mem_cons, List.mem_singleton, List.not_mem_nil, or_false] at h
  rcases h with rfl | rfl | rfl <;> exact ⟨⟨by decide, by decide, by decide⟩, by decide⟩

/-- The name of the file of a page whose title has no slash. -/
theorem Join_dataDir (t : String) (h : '/' ∉ t.data) :
    filepath.Join [dataDir, t ++ dataFormat] = "data/" ++ t ++ ".md" := by
  have hb : '/' ∉ t.data ++ ['.', 'm', 'd'] := by simp [h]
  have pb : path.plain (t.data ++ ['.', 'm', 'd']) := by
    have hl : 3 ≤ (t.data ++ ['.', 'm', 'd']).length := by simp
    refine ⟨?_, ?_, ?_⟩ <;> intro he <;> rw [he] at hl <;> simp at hl
  have hc := path.Clean_relative (a := "data".data) (b := t.data ++ ['.', 'm', 'd'])
    (by decide) hb ⟨by decide, by decide, by decide⟩ pb
  have hd : dataDir ≠ "" := by decide
  have e1 : String.mk (List.intercalate ['/'] ([dataDir, t ++ dataFormat].map String.data)) =
      String.mk ("data".data ++ '/' :: (t.data ++ ['.', 'm', 'd'])) := by
    apply String.ext
    simp [List.intercalate, dataDir, dataFormat, String.data_append]
  have e2 : "data/" ++ t ++ ".md" = String.mk ("data".data ++ '/' :: (t.data ++ ['.', 'm', 'd'])) := by
    apply String.ext
    simp [String.data_append]
  simp only [filepath.Join, List.dropWhile, hd, decide_False]
  rw [e1, hc, e2]

theorem cleanPath_route (v t : String)
    (hv : v = "edit" ∨ v = "save" ∨ v = "view") (hne : t ≠ "")
    (hal : ∀ c ∈ t.data, c.isAlphanum = true) :
    http.cleanPath ("/" ++ v ++ "/" ++ t) = "/" ++ v ++ "/" ++ t := by
  have hv' : v.data ∈ regexp.verbs := by
    rcases hv with rfl | rfl | rfl <;> simp [regexp.verbs]
  have hne' : t.data ≠ [] := fun h => hne (String.ext h)
  obtain ⟨pv, sv⟩ := plain_of_mem_verbs hv'
  have hc := path.Clean_rooted sv (path.no_slash_of_alnum hal) pv (path.plain_of_alnum hne' hal)
  have e : "/" ++ v ++ "/" ++ t = String.mk ('/' :: (v.data ++ '/' :: t.data)) := by
    apply String.ext
    simp [String.data_append]
  have hlast : ¬ ('/' :: (v.data ++ '/' :: t.data)).getLast? = some '/' := by
    intro h
    have e3 : '/' :: (v.data ++ '/' :: t.data) = ('/' :: (v.data ++ ['/'])) ++ t.data := by simp
    rw [e3, List.getLast?_append_of_ne_nil _ hne'] at h
    exact path.no_slash_of_alnum hal (List.mem_of_getLast?_eq_some h)
  have hne2 : "/" ++ v ++ "/" ++ t ≠ "" := by
    rw [e]
    intro h
    have := congrArg String.data h
    simp at this
  unfold http.cleanPath
  rw [if_neg hne2]
  simp only [e, List.head?_cons, if_true, hc, hlast, false_and, if_false]

/-! ## The page store -/

theorem no_slash_of_token {t : String} (hal : ∀ c ∈ t.data, c.isAlphanum = true) :
    '/' ∉ t.data :=
  path.no_slash_of_alnum hal

theorem save_eq (t : String) (B : ByteArray) (fs : FileSystem) (h : '/' ∉ t.data) :
    (Page.mk t B).save fs = ioutil.WriteFile fs ("data/" ++ t ++ ".md") B 0o600 := by
  simp only [Page.save, Join_dataDir t h]

theorem loadPage_eq (t : String) (fs : FileSystem) (h : '/' ∉ t.data) :
    loadPage t fs = (ioutil.ReadFile fs ("data/" ++ t ++ ".md")).map (Page.mk t) := by
  simp only [loadPage, Join_dataDir t h]
  cases ioutil.ReadFile fs ("data/" ++ t ++ ".md") <;> rfl

/-- Loading after a successful save gives back the page, whatever the title. -/
theorem loadPage_after_save (t : String) (B : ByteArray) (fs : FileSystem)
    (hw : ((Page.mk t B).save fs).1 = none) :
    loadPage t ((Page.mk t B).save fs).2 = .ok ⟨t, B⟩ ∧
      ((Page.mk t B).save fs).2.files (filepath.Join [dataDir, t ++ dataFormat]) = some B := by
  simp only [Page.save, ioutil.WriteFile] at hw ⊢
  cases hr : fs.refuses (filepath.Join [dataDir, t ++ dataFormat]) with
  | some e => simp [hr] at hw
  | none => simp [loadPage, ioutil.ReadFile]

/-- C1. Round trip of the page store: for a title of ASCII letters and digits,
any body and any file system in which the write of `save` succeeds, `loadPage`
of the title afterwards returns no error and the page with that title and
exactly that body. -/
theorem save_loadPage_roundtrip (t : String) (B : ByteArray) (fs : FileSystem)
    (_hne : t ≠ "") (_hal : ∀ c ∈ t.data, c.isAlphanum = true)
    (hw : ((Page.mk t B).save fs).1 = none) :
    loadPage t ((Page.mk t B).save fs).2 = .ok { Title := t, Body := B } :=
  (loadPage_after_save t B fs hw).1

/-- C1 at the title `Home` on an empty file system. -/
theorem save_loadPage_roundtrip_witness :
    ((Page.mk "Home" "hello".toUTF8).save emptyFS).1 = none ∧
      loadPage "Home" ((Page.mk "Home" "hello".toUTF8).save emptyFS).2 =
        .ok { Title := "Home", Body := "hello".toUTF8 } :=
  ⟨rfl, save_loadPage_roundtrip "Home" "hello".toUTF8 emptyFS (by decide) (by decide) rfl⟩

/-- C8. Page identity: for titles of ASCII letters and digits, `save` writes and
`loadPage` reads one and the same file, named `dataDir + "/" + t + dataFormat`,
that is `"data/" + t + ".md"`, and two such titles with the same file are the
same title. -/
theorem page_path_identity (t1 t2 : String)
    (_hne1 : t1 ≠ "") (hal1 : ∀ c ∈ t1.data, c.isAlphanum = true)
    (_hne2 : t2 ≠ "") (hal2 : ∀ c ∈ t2.data, c.isAlphanum = true) :
    filepath.Join [dataDir, t1 ++ dataFormat] = dataDir ++ "/" ++ t1 ++ dataFormat ∧
    dataDir ++ "/" ++ t1 ++ dataFormat = "data/" ++ t1 ++ ".md" ∧
    (∀ B fs, (Page.mk t1 B).save fs =
      ioutil.WriteFile fs (dataDir ++ "/" ++ t1 ++ dataFormat) B 0o600) ∧
    (∀ fs, loadPage t1 fs =
      (ioutil.ReadFile fs (dataDir ++ "/" ++ t1 ++ dataFormat)).map (Page.mk t1)) ∧
    (filepath.Join [dataDir, t1 ++ dataFormat] = filepath.Join [dataDir, t2 ++ dataFormat] →
      t1 = t2) := by
  have h1 := no_slash_of_token hal1
  have h2 := no_slash_of_token hal2
  have e : ∀ t : String, dataDir ++ "/" ++ t ++ dataFormat = "data/" ++ t ++ ".md" := by
    intro t
    apply String.ext
    simp [dataDir, dataFormat, String.data_append]
  refine ⟨by rw [Join_dataDir t1 h1, e], e t1, ?_, ?_, ?_⟩
  · intro B fs
    rw [e, save_eq t1 B fs h1]
  · intro fs
    rw [e, loadPage_eq t1 fs h1]
  · intro h
    rw [Join_dataDir t1 h1, Join_dataDir t2 h2] at h
    have hd := congrArg String.data h
    simp only [String.data_append, List.append_assoc] at hd
    apply String.ext
    exact List.append_cancel_right (List.append_cancel_left hd)

/-- Without the restriction of the title to a token two titles can share a
file: `path.Clean` removes the `..` element. -/
theorem page_path_collision :
    filepath.Join [dataDir, "x/../Home" ++ dataFormat] =
      filepath.Join [dataDir, "Home" ++ dataFormat] := by
  decide

/-- C8 at the titles `Home` and `Home2`. -/
theorem page_path_identity_witness :
    filepath.Join [dataDir, "Home" ++ dataFormat] = dataDir ++ "/" ++ "Home" ++ dataFormat ∧
    dataDir ++ "/" ++ "Home" ++ dataFormat = "data/" ++ "Home" ++ ".md" ∧
    (∀ B fs, (Page.mk "Home" B).save fs =
      ioutil.WriteFile fs (dataDir ++ "/" ++ "Home" ++ dataFormat) B 0o600) ∧
    (∀ fs, loadPage "Home" fs =
      (ioutil.ReadFile fs (dataDir ++ "/" ++ "Home" ++ dataFormat)).map (Page.mk "Home")) ∧
    (filepath.Join [dataDir, "Home" ++ dataFormat] = filepath.Join [dataDir, "Home2" ++ dataFormat] →
      "Home" = "Home2") :=
  page_path_identity "Home" "Home2" (by decide) (by decide) (by decide) (by decide)

/-! ## The handlers -/

/-- A call on a writer on which no status has been written yet decides the
status. -/
theorem statusCode_append (w : List Call) (c : Call) (h : http.statusCode w = none) :
    http.statusCode (w ++ [c]) = http.callStatus c := by
  unfold http.statusCode at h ⊢
  rw [List.findSome?_append, h]
  cases hc : http.callStatus c <;> simp [List.findSome?, hc]

theorem not_route_of_no_match (p : String) (h : validPath.FindStringSubmatch p = none) :
    ¬ ∃ v t : String, (v = "edit" ∨ v = "save" ∨ v = "view") ∧ isToken t ∧
      p = "/" ++ v ++ "/" ++ t := by
  rintro ⟨v, t, hv, ⟨hne, hal⟩, rfl⟩
  rw [FindStringSubmatch_route v t hv hne hal] at h
  exact absurd h (by simp)

/-- C2. Rejection by the router: for every handler `fn` and every request whose
path is not exactly `"/" + v + "/" + t` with `v` one of edit, save, view and `t`
a non-empty string of ASCII letters and digits, `makeHandler fn` does what
`http.NotFound` does and nothing else: the one call on the writer is the 404
reply (which is the status of the response if none was written before), `fn`
has no part in the result, and the file system is as before. -/
theorem makeHandler_rejects (fn : Request → String → State → State) (r : Request) (s : State)
    (h : ¬ ∃ v t : String, (v = "edit" ∨ v = "save" ∨ v = "view") ∧ isToken t ∧
      r.Path = "/" ++ v ++ "/" ++ t) :
    makeHandler fn r s = http.NotFound r s ∧
      (makeHandler fn r s).w = s.w ++ [Call.notFound] ∧
      (http.statusCode s.w = none → http.statusCode (makeHandler fn r s).w = some 404) ∧
      (makeHandler fn r s).fs = s.fs := by
  have hn : validPath.FindStringSubmatch r.Path = none := by
    cases hm : validPath.FindStringSubmatch r.Path with
    | none => rfl
    | some m =>
      obtain ⟨v, t, hv, hne, hal, hp⟩ := FindStringSubmatch_some r.Path m hm
      exact absurd ⟨v, t, hv, ⟨hne, hal⟩, hp⟩ h
  have e : makeHandler fn r s = http.NotFound r s := by
    simp only [makeHandler, hn]
  rw [e]
  exact ⟨rfl, rfl, fun h0 => statusCode_append s.w Call.notFound h0, rfl⟩

/-- C2 at the path `/save/a_b`. -/
theorem makeHandler_rejects_witness :
    (¬ ∃ v t : String, (v = "edit" ∨ v = "save" ∨ v = "view") ∧ isToken t ∧
      (Request.mk "POST" "/save/a_b" [("body", "x")]).Path = "/" ++ v ++ "/" ++ t) ∧
    (makeHandler saveHandler ⟨"POST", "/save/a_b", [("body", "x")]⟩ emptyState =
        http.NotFound ⟨"POST", "/save/a_b", [("body", "x")]⟩ emptyState ∧
      (makeHandler saveHandler ⟨"POST", "/save/a_b", [("body", "x")]⟩ emptyState).w =
        emptyState.w ++ [Call.notFound] ∧
      (http.statusCode emptyState.w = none →
        http.statusCode
          (makeHandler saveHandler ⟨"POST", "/save/a_b", [("body", "x")]⟩ emptyState).w =
          some 404) ∧
      (makeHandler saveHandler ⟨"POST", "/save/a_b", [("body", "x")]⟩ emptyState).fs =
        emptyState.fs) :=
  ⟨not_route_of_no_match _ (by decide),
    makeHandler_rejects saveHandler ⟨"POST", "/save/a_b", [("body", "x")]⟩ emptyState
      (not_route_of_no_match _ (by decide))⟩

/-- Paths the route pattern turns down: an empty token, a token with a slash,
a dot, an underscore, a space, a letter outside ASCII or a newline at its end, a
further segment, another verb, and a path that only contains a route. -/
theorem validPath_rejects_examples :
    validPath.FindStringSubmatch "/view/" = none ∧
      validPath.FindStringSubmatch "/view/a/b" = none ∧
      validPath.FindStringSubmatch "/view/a.b" = none ∧
      validPath.FindStringSubmatch "/view/a_b" = none ∧
      validPath.FindStringSubmatch "/view/a b" = none ∧
      validPath.FindStringSubmatch "/view/caf\u00e9" = none ∧
      validPath.FindStringSubmatch "/view/Home\n" = none ∧
      validPath.FindStringSubmatch "/view/Home/" = none ∧
      validPath.FindStringSubmatch "/delete/Home" = none ∧
      validPath.FindStringSubmatch "x/view/Home" = none ∧
      validPath.FindStringSubmatch "/view/Home" = some ["/view/Home", "view", "Home"] := by
  decide

/-- C6. View of a missing page: whenever `loadPage` of the title fails,
`viewHandler` makes exactly one call on the writer, the 302 redirect to
`"/edit/" + title`; no template is executed, no error is reported, and the file
system is as before. -/
theorem viewHandler_missing_page (r : Request) (t : String) (s : State) (e : String)
    (h : loadPage t s.fs = .error e) :
    viewHandler r t s = { s with w := s.w ++ [Call.redirect ("/edit/" ++ t) 302] } ∧
      (http.statusCode s.w = none → http.statusCode (viewHandler r t s).w = some 302) := by
  have e : viewHandler r t s = http.Redirect r ("/edit/" ++ t) http.StatusFound s := by
    simp only [viewHandler, h]
  rw [e]
  exact ⟨rfl, fun h0 => statusCode_append s.w _ h0⟩

/-- C6 at the title `NoSuchPage` on an empty file system. -/
theorem viewHandler_missing_page_witness :
    loadPage "NoSuchPage" emptyState.fs =
        .error "open data/NoSuchPage.md: no such file or directory" ∧
      viewHandler ⟨"GET", "/view/NoSuchPage", []⟩ "NoSuchPage" emptyState =
        { emptyState with w := emptyState.w ++ [Call.redirect ("/edit/" ++ "NoSuchPage") 302] } ∧
      http.statusCode (viewHandler ⟨"GET", "/view/NoSuchPage", []⟩ "NoSuchPage" emptyState).w =
        some 302 :=
  ⟨rfl,
    (viewHandler_missing_page ⟨"GET", "/view/NoSuchPage", []⟩ "NoSuchPage" emptyState _ rfl).1,
    (viewHandler_missing_page ⟨"GET", "/view/NoSuchPage", []⟩ "NoSuchPage" emptyState _ rfl).2
      rfl⟩

/-- The page `editHandler` renders: the stored one, or the page with the title
and an empty body when loading fails. -/
theorem editHandler_eq (r : Request) (t : String) (s : State) :
    editHandler r t s =
      (renderTemplate "edit.html"
        (match loadPage t s.fs with
          | .error _ => { Title := t, Body := ByteArray.empty }
          | .ok p => p) s).2 := rfl

theorem renderTemplate_w (tmpl : String) (p : Page) (s : State) :
    (renderTemplate tmpl p s).2.w = s.w ++
      (match s.templates.lookup tmpl with
        | none => []
        | some tpl =>
          Call.setHeader "Content-Type" "text/html; charset=utf-8" ::
            Call.executeTemplate tpl "base" p ::
              (match (tpl.ExecuteTemplate "base" p).2 with
                | some e => [Call.error e 500]
                | none => [])) := by
  unfold renderTemplate
  cases hl : s.templates.lookup tmpl with
  | none => simp
  | some tpl =>
    cases he : (tpl.ExecuteTemplate "base" p).2 with
    | none => simp [he]
    | some e => simp [he, http.Error, http.StatusInternalServerError]

/-- C9. Template lookup: for a name that is not a key of the registry,
`renderTemplate` returns the error `The template <name> does not exist.` and
leaves the writer untouched; for a registered name it sets the content type and
executes the `"base"` entry point of the unit registered under that name with
the page as data, returning what the execution returns. -/
theorem renderTemplate_lookup (tmpl : String) (p : Page) (s : State) :
    (s.templates.lookup tmpl = none →
      renderTemplate tmpl p s = (some ("The template " ++ tmpl ++ " does not exist."), s) ∧
      (renderTemplate tmpl p s).1 ≠ none ∧
      ∀ t name data, Call.executeTemplate t name data ∉ s.w →
        Call.executeTemplate t name data ∉ (renderTemplate tmpl p s).2.w) ∧
    (∀ tpl, s.templates.lookup tmpl = some tpl →
      (renderTemplate tmpl p s).1 = (tpl.ExecuteTemplate "base" p).2 ∧
      ∃ rest, (renderTemplate tmpl p s).2.w =
        s.w ++ Call.setHeader "Content-Type" "text/html; charset=utf-8" ::
          Call.executeTemplate tpl "base" p :: rest ∧
        (rest = [] ∨ ∃ e, (tpl.ExecuteTemplate "base" p).2 = some e ∧ rest = [Call.error e 500])) := by
  constructor
  · intro h
    have e : renderTemplate tmpl p s = (some ("The template " ++ tmpl ++ " does not exist."), s) := by
      simp only [renderTemplate, h]
    rw [e]
    exact ⟨rfl, by simp, fun _ _ _ hn => hn⟩
  · intro tpl h
    constructor
    · unfold renderTemplate
      simp only [h]
      cases (tpl.ExecuteTemplate "base" p).2 <;> rfl
    · simp only [renderTemplate_w, h]
      cases he : (tpl.ExecuteTemplate "base" p).2 with
      | none => exact ⟨[], rfl, Or.inl rfl⟩
      | some e => exact ⟨[Call.error e 500], rfl, Or.inr ⟨e, rfl, rfl⟩⟩

/-- C9 at an unregistered and at a registered name. -/
theorem renderTemplate_lookup_witness :
    emptyState.templates.lookup "nosuch.html" = none ∧
      renderTemplate "nosuch.html" ⟨"Home", ByteArray.empty⟩ emptyState =
        (some ("The template " ++ "nosuch.html" ++ " does not exist."), emptyState) ∧
      readyState.templates.lookup "view.html" = some okTemplate ∧
      (renderTemplate "view.html" ⟨"Home", ByteArray.empty⟩ readyState).1 =
        (okTemplate.ExecuteTemplate "base" ⟨"Home", ByteArray.empty⟩).2 :=
  ⟨rfl,
    ((renderTemplate_lookup "nosuch.html" ⟨"Home", ByteArray.empty⟩ emptyState).1 rfl).1,
    rfl,
    ((renderTemplate_lookup "view.html" ⟨"Home", ByteArray.empty⟩ readyState).2 okTemplate rfl).1⟩

/-- What `renderTemplate` does with a registered template: the content type,
the execution of the entry point `"base"`, and the report of its error if it
fails. -/
theorem renderTemplate_registered (tmpl : String) (p : Page) (s : State) (tpl : Template)
    (h : s.templates.lookup tmpl = some tpl) :
    ((tpl.ExecuteTemplate "base" p).2 = none →
      (renderTemplate tmpl p s).2 =
        { s with w := s.w ++ [Call.setHeader "Content-Type" "text/html; charset=utf-8",
            Call.executeTemplate tpl "base" p] }) ∧
    (∀ e, (tpl.ExecuteTemplate "base" p).2 = some e →
      (renderTemplate tmpl p s).2 =
        { s with w := s.w ++ [Call.setHeader "Content-Type" "text/html; charset=utf-8",
            Call.executeTemplate tpl "base" p, Call.error e 500] }) := by
  constructor
  · intro he
    simp only [renderTemplate, h, he, List.append_assoc, List.singleton_append]
  · intro e he
    simp only [renderTemplate, h, he, http.Error, http.StatusInternalServerError,
      List.append_assoc, List.singleton_append, List.cons_append, List.nil_append]

/-- C7, as amended. Let `edit.html` be registered. Whenever `loadPage` of the
title fails, `editHandler` sets the content type and executes the `"base"` entry
point of that unit on the page with the title and an empty body; when
`loadPage` succeeds it does the same with the loaded page. If the execution
succeeds these are all its calls on the writer, so there is neither a redirect
nor an error response; if it fails with an error, the 500 response with that
error follows. In no case is there a redirect. -/
theorem editHandler_renders (r : Request) (t : String) (s : State) (tpl : Template)
    (hreg : s.templates.lookup "edit.html" = some tpl) :
    (∀ e, loadPage t s.fs = .error e →
      ((tpl.ExecuteTemplate "base" { Title := t, Body := ByteArray.empty }).2 = none →
        editHandler r t s =
          { s with w := s.w ++ [Call.setHeader "Content-Type" "text/html; charset=utf-8",
              Call.executeTemplate tpl "base" { Title := t, Body := ByteArray.empty }] }) ∧
      (∀ e', (tpl.ExecuteTemplate "base" { Title := t, Body := ByteArray.empty }).2 = some e' →
        editHandler r t s =
          { s with w := s.w ++ [Call.setHeader "Content-Type" "text/html; charset=utf-8",
              Call.executeTemplate tpl "base" { Title := t, Body := ByteArray.empty },
              Call.error e' 500] })) ∧
    (∀ p, loadPage t s.fs = .ok p →
      ((tpl.ExecuteTemplate "base" p).2 = none →
        editHandler r t s =
          { s with w := s.w ++ [Call.setHeader "Content-Type" "text/html; charset=utf-8",
              Call.executeTemplate tpl "base" p] }) ∧
      (∀ e', (tpl.ExecuteTemplate "base" p).2 = some e' →
        editHandler r t s =
          { s with w := s.w ++ [Call.setHeader "Content-Type" "text/html; charset=utf-8",
              Call.executeTemplate tpl "base" p, Call.error e' 500] })) ∧
    (∀ url code, Call.redirect url code ∉ s.w →
      Call.redirect url code ∉ (editHandler r t s).w) := by
  refine ⟨?_, ?_, ?_⟩
  · intro e h
    rw [editHandler_eq, h]
    exact renderTemplate_registered "edit.html" _ s tpl hreg
  · intro p h
    rw [editHandler_eq, h]
    exact renderTemplate_registered "edit.html" p s tpl hreg
  · intro url code hn
    rw [editHandler_eq, renderTemplate_w, hreg]
    simp only [List.mem_append, List.mem_cons, not_or]
    refine ⟨hn, by simp, by simp, ?_⟩
    cases (tpl.ExecuteTemplate "base" _).2 <;> simp

/-- C7 as amended, at the missing page `NoSuchPage` and at the stored page
`Home`, with a template that executes. -/
theorem editHandler_renders_witness :
    editHandler ⟨"GET", "/edit/NoSuchPage", []⟩ "NoSuchPage" readyState =
        { readyState with w := readyState.w ++
            [Call.setHeader "Content-Type" "text/html; charset=utf-8",
              Call.executeTemplate okTemplate "base"
                { Title := "NoSuchPage", Body := ByteArray.empty }] } ∧
      editHandler ⟨"GET", "/edit/Home", []⟩ "Home" { readyState with fs := homeFS } =
        { readyState with
          fs := homeFS
          w := readyState.w ++
            [Call.setHeader "Content-Type" "text/html; charset=utf-8",
              Call.executeTemplate okTemplate "base"
                { Title := "Home", Body := "hi".toUTF8 }] } :=
  ⟨((editHandler_renders ⟨"GET", "/edit/NoSuchPage", []⟩ "NoSuchPage" readyState okTemplate
      rfl).1 "open data/NoSuchPage.md: no such file or directory" rfl).1 rfl,
    ((editHandler_renders ⟨"GET", "/edit/Home", []⟩ "Home" { readyState with fs := homeFS }
      okTemplate rfl).2.1 { Title := "Home", Body := "hi".toUTF8 } rfl).1 rfl⟩

/-- C7 as stated fails: the page `NoSuchPage` is missing, `edit.html` is
registered and its execution fails, and `editHandler` answers with the error
response of `renderTemplate`, status 500. -/
theorem editHandler_renders_counterexample :
    loadPage "NoSuchPage" brokenState.fs =
        .error "open data/NoSuchPage.md: no such file or directory" ∧
      (editHandler ⟨"GET", "/edit/NoSuchPage", []⟩ "NoSuchPage" brokenState).w =
        [Call.setHeader "Content-Type" "text/html; charset=utf-8",
          Call.executeTemplate failingTemplate "base"
            { Title := "NoSuchPage", Body := ByteArray.empty },
          Call.error "html/template: \"base\" is undefined" 500] ∧
      http.statusCode (editHandler ⟨"GET", "/edit/NoSuchPage", []⟩ "NoSuchPage" brokenState).w =
        some 500 ∧
      (http.respond ⟨"GET", "/edit/NoSuchPage", []⟩
        (editHandler ⟨"GET", "/edit/NoSuchPage", []⟩ "NoSuchPage" brokenState).w).status = 500 :=
  ⟨rfl, rfl, rfl, rfl⟩

/-- C10. Save success: when the write of the page succeeds, `saveHandler`
leaves the file of the title holding exactly the bytes of the form field `body`
(so that `loadPage` returns them) and makes exactly one call on the writer, the
302 redirect to `"/view/" + title`. -/
theorem saveHandler_success (r : Request) (t : String) (s : State)
    (h : ((Page.mk t (r.FormValue "body").toUTF8).save s.fs).1 = none) :
    (saveHandler r t s).fs.files (filepath.Join [dataDir, t ++ dataFormat]) =
        some (r.FormValue "body").toUTF8 ∧
      loadPage t (saveHandler r t s).fs = .ok { Title := t, Body := (r.FormValue "body").toUTF8 } ∧
      (saveHandler r t s).w = s.w ++ [Call.redirect ("/view/" ++ t) 302] ∧
      (http.statusCode s.w = none → http.statusCode (saveHandler r t s).w = some 302) := by
  obtain ⟨h1, h2⟩ := loadPage_after_save t (r.FormValue "body").toUTF8 s.fs h
  have hfs : (saveHandler r t s).fs = ((Page.mk t (r.FormValue "body").toUTF8).save s.fs).2 := by
    simp only [saveHandler]
    cases ((Page.mk t (r.FormValue "body").toUTF8).save s.fs).1 <;> rfl
  have hw : (saveHandler r t s).w = s.w ++ [Call.redirect ("/view/" ++ t) 302] := by
    simp only [saveHandler, h]
    rfl
  rw [hfs, hw]
  exact ⟨h2, h1, rfl, fun h0 => statusCode_append s.w _ h0⟩

/-- C10 at the title `Test` and the body `# Hi` on an empty file system. -/
theorem saveHandler_success_witness :
    ((Page.mk "Test" ((Request.mk "POST" "/save/Test" [("body", "# Hi")]).FormValue
        "body").toUTF8).save emptyState.fs).1 = none ∧
      (saveHandler ⟨"POST", "/save/Test", [("body", "# Hi")]⟩ "Test" emptyState).fs.files
          "data/Test.md" = some "# Hi".toUTF8 ∧
      (saveHandler ⟨"POST", "/save/Test", [("body", "# Hi")]⟩ "Test" emptyState).w =
        [Call.redirect "/view/Test" 302] :=
  ⟨rfl,
    (saveHandler_success ⟨"POST", "/save/Test", [("body", "# Hi")]⟩ "Test" emptyState rfl).1,
    (saveHandler_success ⟨"POST", "/save/Test", [("body", "# Hi")]⟩ "Test" emptyState rfl).2.2.1⟩

/-- Whenever `save` fails, `saveHandler` reports the error with status 500 and
then goes on to the redirect: there is no `return` after `http.Error`. -/
theorem saveHandler_failure (r : Request) (t : String) (s : State) (e : String)
    (h : ((Page.mk t (r.FormValue "body").toUTF8).save s.fs).1 = some e) :
    (saveHandler r t s).w =
      s.w ++ [Call.error e 500, Call.redirect ("/view/" ++ t) 302] := by
  simp only [saveHandler, h]
  simp [http.Redirect, http.Error, http.StatusInternalServerError, http.StatusFound]

/-- At a failing save the calls on the writer are the error and, after it, the
redirect. -/
theorem saveHandler_failed_save_also_redirects :
    ((Page.mk "Test" "# Hi".toUTF8).save readOnlyFS).1 =
        some "open data/Test.md: permission denied" ∧
      (saveHandler ⟨"POST", "/save/Test", [("body", "# Hi")]⟩ "Test" readOnlyState).w =
        [Call.error "open data/Test.md: permission denied" 500,
          Call.redirect "/view/Test" 302] :=
  ⟨rfl, rfl⟩

/-- The response to an error call followed by a redirect call is that of the
error alone: the header is written once, and the redirect adds no body because
a content type is set. -/
theorem respond_error_redirect (r : Request) (e url : String) (code code2 : Nat) :
    (http.respond r [Call.error e code, Call.redirect url code2]).status = code ∧
      (http.respond r [Call.error e code, Call.redirect url code2]).body = e ++ "\n" ∧
      (http.respond r [Call.error e code, Call.redirect url code2]).header =
        [("X-Content-Type-Options", "nosniff"), ("Content-Type", "text/plain; charset=utf-8")] ∧
      http.respond r [Call.error e code, Call.redirect url code2] =
        http.respond r [Call.error e code] := by
  have hb : ("" : String) ++ (e ++ "\n") = e ++ "\n" := by
    apply String.ext
    simp [String.data_append]
  have hl : List.lookup "Content-Type"
      [("X-Content-Type-Options", "nosniff"), ("Content-Type", "text/plain; charset=utf-8")] =
      some "text/plain; charset=utf-8" := by decide
  have hh : http.headerSet (http.headerSet [] "Content-Type" "text/plain; charset=utf-8")
      "X-Content-Type-Options" "nosniff" =
      [("X-Content-Type-Options", "nosniff"), ("Content-Type", "text/plain; charset=utf-8")] := by
    decide
  simp only [http.respond, List.foldl, http.perform, http.Writer.WriteHeader, http.Writer.Write,
    hl, Option.isSome_some, Bool.not_true, Bool.false_and, Bool.false_eq_true, if_false, hb, hh]
  exact ⟨trivial, trivial, trivial, trivial⟩

/-- The response to a single redirect call has the status of the call and its
target as `Location`. -/
theorem respond_redirect (r : Request) (url : String) (code : Nat) :
    (http.respond r ([] ++ [Call.redirect url code])).status = code ∧
      (http.respond r ([] ++ [Call.redirect url code])).header.lookup "Location" = some url := by
  have hne : ("Location" == "Content-Type") = false := by decide
  simp only [http.respond, List.nil_append, List.foldl, http.perform, List.lookup,
    Option.isSome_none, Bool.not_false, Bool.true_and, http.headerSet, List.filter_nil]
  by_cases hg : (r.Method == "GET") = true
  · simp [hg, http.Writer.WriteHeader, http.Writer.Write, List.lookup, hne]
  · by_cases hh : (r.Method == "HEAD") = true
    · simp [hg, hh, http.Writer.WriteHeader, http.Writer.Write, List.lookup, hne]
    · simp [hg, hh, http.Writer.WriteHeader, http.Writer.Write, List.lookup]

/-- C5. Save failure: on a fresh writer, whenever `save` returns an error,
the response of `saveHandler` has status 500, its body is the text of the error
as `http.Error` prints it, on a line of its own, and nothing after it, and no
`Location` header is sent; the response is the 302 redirect to
`"/view/" + title` when the save succeeds, and only then. -/
theorem saveHandler_failure_response (r : Request) (t : String) (s : State) (hw : s.w = []) :
    (∀ e, ((Page.mk t (r.FormValue "body").toUTF8).save s.fs).1 = some e →
      (http.respond r (saveHandler r t s).w).status = 500 ∧
      (http.respond r (saveHandler r t s).w).body = e ++ "\n" ∧
      (http.respond r (saveHandler r t s).w).header.lookup "Location" = none ∧
      http.respond r (saveHandler r t s).w = http.respond r [Call.error e 500] ∧
      http.statusCode (saveHandler r t s).w = some 500) ∧
    (((Page.mk t (r.FormValue "body").toUTF8).save s.fs).1 = none →
      (http.respond r (saveHandler r t s).w).status = 302 ∧
      (http.respond r (saveHandler r t s).w).header.lookup "Location" = some ("/view/" ++ t)) ∧
    ((http.respond r (saveHandler r t s).w).status = 302 →
      ((Page.mk t (r.FormValue "body").toUTF8).save s.fs).1 = none) ∧
    ((http.respond r (saveHandler r t s).w).header.lookup "Location" ≠ none →
      ((Page.mk t (r.FormValue "body").toUTF8).save s.fs).1 = none) := by
  have hfail : ∀ e, ((Page.mk t (r.FormValue "body").toUTF8).save s.fs).1 = some e →
      (saveHandler r t s).w = [Call.error e 500, Call.redirect ("/view/" ++ t) 302] := by
    intro e h
    rw [saveHandler_failure r t s e h, hw]
    rfl
  refine ⟨?_, ?_, ?_, ?_⟩
  · intro e h
    rw [hfail e h]
    obtain ⟨h1, h2, h3, h4⟩ := respond_error_redirect r e ("/view/" ++ t) 500 302
    refine ⟨h1, h2, ?_, h4, rfl⟩
    rw [h3]
    decide
  · intro h
    rw [(saveHandler_success r t s h).2.2.1, hw]
    exact respond_redirect r ("/view/" ++ t) 302
  · intro h
    cases hs : ((Page.mk t (r.FormValue "body").toUTF8).save s.fs).1 with
    | none => rfl
    | some e =>
      rw [hfail e hs, (respond_error_redirect r e ("/view/" ++ t) 500 302).1] at h
      exact absurd h (by decide)
  · intro h
    cases hs : ((Page.mk t (r.FormValue "body").toUTF8).save s.fs).1 with
    | none => rfl
    | some e =>
      rw [hfail e hs, (respond_error_redirect r e ("/view/" ++ t) 500 302).2.2.1] at h
      exact absurd h (by decide)

/-- C5 at a save of the page `Test` that the file system refuses. -/
theorem saveHandler_failure_response_witness :
    ((Page.mk "Test" ((Request.mk "POST" "/save/Test" [("body", "# Hi")]).FormValue
        "body").toUTF8).save readOnlyState.fs).1 = some "open data/Test.md: permission denied" ∧
      (http.respond ⟨"POST", "/save/Test", [("body", "# Hi")]⟩
        (saveHandler ⟨"POST", "/save/Test", [("body", "# Hi")]⟩ "Test" readOnlyState).w).status =
        500 ∧
      (http.respond ⟨"POST", "/save/Test", [("body", "# Hi")]⟩
        (saveHandler ⟨"POST", "/save/Test", [("body", "# Hi")]⟩ "Test" readOnlyState).w).body =
        "open data/Test.md: permission denied" ++ "\n" ∧
      (http.respond ⟨"POST", "/save/Test", [("body", "# Hi")]⟩
        (saveHandler ⟨"POST", "/save/Test", [("body", "# Hi")]⟩ "Test"
          readOnlyState).w).header.lookup "Location" = none :=
  ⟨rfl,
    ((saveHandler_failure_response ⟨"POST", "/save/Test", [("body", "# Hi")]⟩ "Test"
      readOnlyState rfl).1 _ rfl).1,
    ((saveHandler_failure_response ⟨"POST", "/save/Test", [("body", "# Hi")]⟩ "Test"
      readOnlyState rfl).1 _ rfl).2.1,
    ((saveHandler_failure_response ⟨"POST", "/save/Test", [("body", "# Hi")]⟩ "Test"
      readOnlyState rfl).1 _ rfl).2.2.1⟩

/-! ## The multiplexer of `main` -/

/-- The handler `main` registers for each subtree, selected by the longest
registered prefix of the path. -/
theorem handler_mainWith (view edit save : Request → String → State → State) (p : String) :
    (mainWith view edit save).handler p =
      if strings.HasPrefix p "/static/" then http.StripPrefix "/static/" (http.FileServer "static")
      else if strings.HasPrefix p "/view/" then makeHandler view
      else if strings.HasPrefix p "/edit/" then makeHandler edit
      else if strings.HasPrefix p "/save/" then makeHandler save
      else if strings.HasPrefix p "/" then rootHandler
      else http.NotFound := by
  have g0 : "/".data.getLast? = some '/' := rfl
  have g1 : "/static/".data.getLast? = some '/' := rfl
  have g2 : "/view/".data.getLast? = some '/' := rfl
  have g3 : "/edit/".data.getLast? = some '/' := rfl
  have g4 : "/save/".data.getLast? = some '/' := rfl
  have n0 : "/".length = 1 := rfl
  have n1 : "/static/".length = 8 := rfl
  have n2 : "/view/".length = 6 := rfl
  have n3 : "/edit/".length = 6 := rfl
  have n4 : "/save/".length = 6 := rfl
  have d0 : "/".data = ['/'] := rfl
  have d1 : "/static/".data = ['/', 's', 't', 'a', 't', 'i', 'c', '/'] := rfl
  have d2 : "/view/".data = ['/', 'v', 'i', 'e', 'w', '/'] := rfl
  have d3 : "/edit/".data = ['/', 'e', 'd', 'i', 't', '/'] := rfl
  have d4 : "/save/".data = ['/', 's', 'a', 'v', 'e', '/'] := rfl
  by_cases e0 : p = "/"
  · rw [e0]; rfl
  by_cases e1 : p = "/static/"
  · rw [e1]; rfl
  by_cases e2 : p = "/view/"
  · rw [e2]; rfl
  by_cases e3 : p = "/edit/"
  · rw [e3]; rfl
  by_cases e4 : p = "/save/"
  · rw [e4]; rfl
  have e0' : ¬ "/" = p := fun h => e0 h.symm
  have e1' : ¬ "/static/" = p := fun h => e1 h.symm
  have e2' : ¬ "/view/" = p := fun h => e2 h.symm
  have e3' : ¬ "/edit/" = p := fun h => e3 h.symm
  have e4' : ¬ "/save/" = p := fun h => e4 h.symm
  simp only [mainWith, http.ServeMux.Handle, List.nil_append, List.cons_append,
    http.ServeMux.handler, http.ServeMux.findMatch, List.find?_cons, List.find?_nil,
    e0', e1', e2', e3', e4', decide_False, g0, g1, g2, g3, g4, decide_True, Bool.true_and,
    List.filter_cons, List.filter_nil]
  cases h0 : strings.HasPrefix p "/" <;> cases h1 : strings.HasPrefix p "/static/" <;>
    cases h2 : strings.HasPrefix p "/view/" <;> cases h3 : strings.HasPrefix p "/edit/" <;>
    cases h4 : strings.HasPrefix p "/save/" <;>
    simp [http.longer, n0, n1, n2, n3, n4]

theorem append_slash_eq (p q : String) : q ++ "/" = p ++ "/" ↔ q = p := by
  constructor
  · intro h
    have hd := congrArg String.data h
    simp only [String.data_append] at hd
    exact String.ext (List.append_cancel_right hd)
  · intro h
    rw [h]

/-- The multiplexer of `main` redirects to a path with a slash added exactly
for the four subtree roots named without it. -/
theorem shouldRedirect_mainWith (view edit save : Request → String → State → State)
    (p : String) (h1 : p ≠ "/static") (h2 : p ≠ "/view") (h3 : p ≠ "/edit") (h4 : p ≠ "/save") :
    (mainWith view edit save).shouldRedirect p = false := by
  have c0 : ("/" = p ++ "/") = (p = "") := by
    have := append_slash_eq p ""
    simp only [eq_iff_iff]
    constructor
    · intro h
      exact (this.mp (by simpa using h)).symm
    · intro h
      rw [h]
      rfl
  have c1 : ¬ "/static/" = p ++ "/" := fun h => h1 ((append_slash_eq p "/static").mp h).symm
  have c2 : ¬ "/view/" = p ++ "/" := fun h => h2 ((append_slash_eq p "/view").mp h).symm
  have c3 : ¬ "/edit/" = p ++ "/" := fun h => h3 ((append_slash_eq p "/edit").mp h).symm
  have c4 : ¬ "/save/" = p ++ "/" := fun h => h4 ((append_slash_eq p "/save").mp h).symm
  simp only [mainWith, http.ServeMux.Handle, List.nil_append, List.cons_append,
    http.ServeMux.shouldRedirect, List.any_cons, List.any_nil, c0, c1, c2, c3, c4, decide_False,
    Bool.or_false]
  by_cases hp : p = ""
  · simp [hp]
  · simp [hp]

theorem makeHandler_route (fn : Request → String → State → State) (r : Request) (s : State)
    (v t : String) (hv : v = "edit" ∨ v = "save" ∨ v = "view") (ht : isToken t)
    (hp : r.Path = "/" ++ v ++ "/" ++ t) :
    makeHandler fn r s = fn r t s := by
  simp only [makeHandler, hp, FindStringSubmatch_route v t hv ht.1 ht.2]
  rfl

theorem route_data (v t : String) :
    ("/" ++ v ++ "/" ++ t).data = '/' :: (v.data ++ '/' :: t.data) := by
  simp [String.data_append]

theorem route_ne_root (v t q : String) (hv : v = "edit" ∨ v = "save" ∨ v = "view")
    (hq : q = "/static" ∨ q = "/view" ∨ q = "/edit" ∨ q = "/save") :
    "/" ++ v ++ "/" ++ t ≠ q := by
  intro h
  have hd := congrArg String.data h
  rw [route_data] at hd
  rcases hv with rfl | rfl | rfl <;> rcases hq with rfl | rfl | rfl | rfl <;>
    simp at hd

/-- C3. Dispatch on a match: for a request path `"/" + v + "/" + t` with `v` one
of edit, save, view and `t` a non-empty string of ASCII letters and digits, the
multiplexer set up by `main` does exactly what one call of the handler
registered for `v` with the title `t` does, whatever the three handlers are; in
`main` itself these are `viewHandler`, `editHandler` and `saveHandler`. -/
theorem dispatch_on_match (view edit save : Request → String → State → State)
    (r : Request) (s : State) (v t : String)
    (hv : v = "edit" ∨ v = "save" ∨ v = "view") (ht : isToken t)
    (hp : r.Path = "/" ++ v ++ "/" ++ t) :
    (mainWith view edit save).ServeHTTP r s =
        (if v = "view" then view else if v = "edit" then edit else save) r t s ∧
      main.ServeHTTP r s =
        (if v = "view" then viewHandler else if v = "edit" then editHandler
          else saveHandler) r t s := by
  have key : ∀ view edit save : Request → String → State → State,
      (mainWith view edit save).ServeHTTP r s =
        (if v = "view" then view else if v = "edit" then edit else save) r t s := by
    intro view edit save
    have hsr : (mainWith view edit save).shouldRedirect r.Path = false := by
      rw [hp]
      exact shouldRedirect_mainWith view edit save _
        (route_ne_root v t _ hv (Or.inl rfl)) (route_ne_root v t _ hv (Or.inr (Or.inl rfl)))
        (route_ne_root v t _ hv (Or.inr (Or.inr (Or.inl rfl))))
        (route_ne_root v t _ hv (Or.inr (Or.inr (Or.inr rfl))))
    have hcl : http.cleanPath r.Path = r.Path := by
      rw [hp]
      exact cleanPath_route v t hv ht.1 ht.2
    have hh : (mainWith view edit save).handler r.Path r s =
        (if v = "view" then view else if v = "edit" then edit else save) r t s := by
      rw [handler_mainWith, hp]
      simp only [strings.HasPrefix, route_data]
      rcases hv with rfl | rfl | rfl
      · have e : (("edit" : String) = "view") = False := by decide
        simp [e]
        exact makeHandler_route edit r s "edit" t (Or.inl rfl) ht hp
      · have e : (("save" : String) = "view") = False := by decide
        have e' : (("save" : String) = "edit") = False := by decide
        simp [e, e']
        exact makeHandler_route save r s "save" t (Or.inr (Or.inl rfl)) ht hp
      · simp
        exact makeHandler_route view r s "view" t (Or.inr (Or.inr rfl)) ht hp
    unfold http.ServeMux.ServeHTTP
    simp only [hsr, hcl, ne_eq, not_true_eq_false, if_false, Bool.false_eq_true, ite_self, hh]
  exact ⟨key view edit save, key viewHandler editHandler saveHandler⟩

/-- C3 at the path `/view/Home`. -/
theorem dispatch_on_match_witness :
    (mainWith viewHandler editHandler saveHandler).ServeHTTP ⟨"GET", "/view/Home", []⟩ emptyState =
        (if ("view" : String) = "view" then viewHandler
          else if ("view" : String) = "edit" then editHandler else saveHandler)
          ⟨"GET", "/view/Home", []⟩ "Home" emptyState ∧
      main.ServeHTTP ⟨"GET", "/view/Home", []⟩ emptyState =
        (if ("view" : String) = "view" then viewHandler
          else if ("view" : String) = "edit" then editHandler else saveHandler)
          ⟨"GET", "/view/Home", []⟩ "Home" emptyState :=
  dispatch_on_match viewHandler editHandler saveHandler ⟨"GET", "/view/Home", []⟩ emptyState
    "view" "Home" (by decide) (by decide) rfl

theorem Clean_rooted_head (p : String) (h : p.data.head? = some '/') :
    (path.Clean p).data.head? = some '/' := by
  have hne : p ≠ "" := by
    rintro rfl
    simp at h
  unfold path.Clean
  rw [if_neg hne]
  simp [h]

theorem cleanPath_head (p : String) : (http.cleanPath p).data.head? = some '/' := by
  have key : ∀ q : String, q.data.head? = some '/' →
      (if q.data.getLast? = some '/' ∧ path.Clean q ≠ "/" then path.Clean q ++ "/"
        else path.Clean q).data.head? = some '/' := by
    intro q hq
    have hn := Clean_rooted_head q hq
    split
    · rw [String.data_append, List.head?_append_of_ne_nil]
      · exact hn
      · intro h0
        rw [h0] at hn
        simp at hn
    · exact hn
  unfold http.cleanPath
  by_cases hp : p = ""
  · rw [if_pos hp]
    rfl
  · rw [if_neg hp]
    apply key
    by_cases hh : p.data.head? = some '/'
    · rw [if_pos hh]
      exact hh
    · rw [if_neg hh]
      simp [String.data_append]

theorem makeHandler_no_match (fn : Request → String → State → State) (r : Request) (s : State)
    (h : validPath.FindStringSubmatch r.Path = none) :
    makeHandler fn r s = http.NotFound r s := by
  simp only [makeHandler, h]

/-- C4, as amended. A request other than `CONNECT` whose path is in canonical
form, is not `/`, is not under `/static/` and does not match the route pattern
is answered with 404 if its path is under `/view/`, `/edit/` or `/save/`;
otherwise, unless the path is one of the four subtree roots without a slash, it
goes to `rootHandler`, which redirects with 302 to the front page. -/
theorem default_route (r : Request) (s : State) (hm : r.Method ≠ "CONNECT")
    (hc : http.cleanPath r.Path = r.Path) (_hroot : r.Path ≠ "/")
    (hstatic : strings.HasPrefix r.Path "/static/" = false)
    (hroute : validPath.FindStringSubmatch r.Path = none) :
    ((strings.HasPrefix r.Path "/view/" = true ∨ strings.HasPrefix r.Path "/edit/" = true ∨
        strings.HasPrefix r.Path "/save/" = true) →
      main.ServeHTTP r s = http.NotFound r s ∧
        (main.ServeHTTP r s).w = s.w ++ [Call.notFound]) ∧
    (strings.HasPrefix r.Path "/view/" = false → strings.HasPrefix r.Path "/edit/" = false →
      strings.HasPrefix r.Path "/save/" = false →
      r.Path ≠ "/static" → r.Path ≠ "/view" → r.Path ≠ "/edit" → r.Path ≠ "/save" →
      main.ServeHTTP r s = rootHandler r s ∧
        (main.ServeHTTP r s).w = s.w ++ [Call.redirect "/view/FrontPage" 302]) := by
  have hserve : ∀ h : http.Handler, main.shouldRedirect r.Path = false →
      main.handler r.Path = h → main.ServeHTTP r s = h r s := by
    intro h hsr hh
    unfold http.ServeMux.ServeHTTP
    simp only [hm, if_false, hc, hsr, ne_eq, not_true_eq_false, Bool.false_eq_true, hh]
  constructor
  · intro hpre
    have hsr : main.shouldRedirect r.Path = false := by
      apply shouldRedirect_mainWith <;> rintro h <;> rw [h] at hpre <;>
        exact absurd hpre (by decide)
    have hh : main.handler r.Path r s = http.NotFound r s := by
      unfold main
      rw [handler_mainWith]
      simp only [hstatic, Bool.false_eq_true, if_false]
      split
      · exact makeHandler_no_match _ r s hroute
      · split
        · exact makeHandler_no_match _ r s hroute
        · split
          · exact makeHandler_no_match _ r s hroute
          · rename_i h1 h2 h3
            simp [h1, h2, h3] at hpre
    have e : main.ServeHTTP r s = http.NotFound r s := by
      unfold http.ServeMux.ServeHTTP
      simp only [hm, if_false, hc, hsr, ne_eq, not_true_eq_false, Bool.false_eq_true, hh]
    rw [e]
    exact ⟨rfl, rfl⟩
  · intro h2 h3 h4 n1 n2 n3 n4
    have hsr : main.shouldRedirect r.Path = false :=
      shouldRedirect_mainWith _ _ _ _ n1 n2 n3 n4
    have hhead : strings.HasPrefix r.Path "/" = true := by
      have := cleanPath_head r.Path
      rw [hc] at this
      cases hd : r.Path.data with
      | nil => simp [hd] at this
      | cons c cs =>
        simp only [hd, List.head?_cons, Option.some.injEq] at this
        subst this
        have d0 : "/".data = ['/'] := rfl
        simp [strings.HasPrefix, hd, d0]
    have hh : main.handler r.Path = rootHandler := by
      unfold main
      rw [handler_mainWith]
      simp [hstatic, h2, h3, h4, hhead]
    rw [hserve rootHandler hsr hh]
    exact ⟨rfl, rfl⟩

/-- C4 as amended, at the paths `/view/a_b` and `/foo`. -/
theorem default_route_witness :
    (main.ServeHTTP ⟨"GET", "/view/a_b", []⟩ emptyState = http.NotFound ⟨"GET", "/view/a_b", []⟩ emptyState ∧
      (main.ServeHTTP ⟨"GET", "/view/a_b", []⟩ emptyState).w = emptyState.w ++ [Call.notFound]) ∧
    (main.ServeHTTP ⟨"GET", "/foo", []⟩ emptyState = rootHandler ⟨"GET", "/foo", []⟩ emptyState ∧
      (main.ServeHTTP ⟨"GET", "/foo", []⟩ emptyState).w =
        emptyState.w ++ [Call.redirect "/view/FrontPage" 302]) :=
  ⟨(default_route ⟨"GET", "/view/a_b", []⟩ emptyState (by decide) (by decide) (by decide)
      (by decide) (by decide)).1 (Or.inl (by decide)),
    (default_route ⟨"GET", "/foo", []⟩ emptyState (by decide) (by decide) (by decide)
      (by decide) (by decide)).2 (by decide) (by decide) (by decide) (by decide) (by decide)
      (by decide) (by decide)⟩

/-- C4 as stated fails: `/foo` is not `/`, is not under `/static/` and does not
match the route pattern, and the server answers it with the 302 redirect of
`rootHandler`, not with 404. -/
theorem default_route_counterexample :
    "/foo" ≠ "/" ∧ "/static/".data.isPrefixOf "/foo".data = false ∧
      validPath.FindStringSubmatch "/foo" = none ∧
      (main.ServeHTTP ⟨"GET", "/foo", []⟩ emptyState).w = [Call.redirect "/view/FrontPage" 302] ∧
      http.statusCode (main.ServeHTTP ⟨"GET", "/foo", []⟩ emptyState).w = some 302 ∧
      ¬ http.statusCode (main.ServeHTTP ⟨"GET", "/foo", []⟩ emptyState).w = some 404 :=
  ⟨by decide, by decide, by decide, rfl, rfl, by decide⟩

end gowiki
